import Mathlib

/-!
# Verification of the flight-scheduler core against its specification

Shallow embedding of the repository's core modules:

* `src/scheduler.py`            — class `Scheduler` (employee-based assignment pass)
* `src/team_manager.py`         — class `TeamManager` (formation, availability, detection)
* `src/notification_system.py`  — class `NotificationSystem` (pending queue / history ledger)
* `src/flight_handler.py`       — `get_team_size_needed`
* `src/employee_handler.py`     — `find_available_employees`, workload tracking

Timestamps are modelled as `Int` minutes.  Pandas data frames become Lean
lists kept in source order; dicts keyed by insertion order become
association lists.  Display-only payload fields (strftime strings,
formatted reason strings) are abstracted into plain constructors; each
such abstraction is noted at the definition it concerns.
-/

/-- One row of the employee data frame (`employee_handler.py`): fields
`employee_id`, `employee_name`, `start`, `end`, `max_flights_per_day`.
The source column name `end` is a Lean keyword, rendered `shiftEnd`. -/
structure Employee where
  id : Nat
  name : String
  start : Int
  shiftEnd : Int
  maxFlights : Nat
deriving DecidableEq

/-- One row of the flight data frame (`flight_handler.py`): fields
`flight_number`, `city`, `outbound_city`, `eta_datetime`, `etd_datetime`,
`gate`, `heaviness`. -/
structure Flight where
  flightNumber : String
  city : String
  outboundCity : String
  eta : Int
  etd : Int
  gate : String
  heaviness : String
deriving DecidableEq

/-- `FlightHandler.get_team_size_needed`: dict lookup
`{'Light': 3, 'Medium': 4, 'Heavy': 5}` with default `4`. -/
def teamSizeNeeded (heaviness : String) : Nat :=
  if heaviness = "Light" then 3
  else if heaviness = "Medium" then 4
  else if heaviness = "Heavy" then 5
  else 4

/-- Failure reasons recorded by `Scheduler` (`scheduler.py`).  The source
stores formatted strings; `noEmployees` stands for
"No employees available for time slot" and `insufficient got need` for
"Insufficient employees: got/need". -/
inductive FailureReason where
  | noEmployees
  | insufficient (got need : Nat)
deriving DecidableEq

/-- An entry of `Scheduler.assignments`.  Failed records carry no team
fields in the source dict; they are modelled as empty lists here. -/
structure Assignment where
  flightId : String
  requiredTeamSize : Nat
  assignedTeamSize : Nat
  teamIds : List Nat
  teamNames : List String
  success : Bool
  failureReason : Option FailureReason
deriving DecidableEq

/-- Mutable state of one `Scheduler` object: `employee_handler.workload_tracker`
(dict employee id to count) and `self.assignments`. -/
structure SchedState where
  workload : List (Nat × Nat)
  assignments : List Assignment
deriving DecidableEq

/-- Lookup in `workload_tracker` (absent ids read as 0; the source only
queries ids present in the frame). -/
def getWorkload (w : List (Nat × Nat)) (i : Nat) : Nat :=
  ((w.find? (fun p => p.1 = i)).map Prod.snd).getD 0

/-- `EmployeeHandler.assign_flight_to_employee`: increment the counter if
the id is tracked, otherwise leave the tracker unchanged. -/
def bumpWorkload (w : List (Nat × Nat)) (i : Nat) : List (Nat × Nat) :=
  w.map (fun p => if p.1 = i then (p.1, p.2 + 1) else p)

/-- `EmployeeHandler.find_available_employees`: rows with
`start <= flight_start` and `end >= flight_end`, then filtered by
`workload_tracker[id] < max_flights_per_day`. -/
def findAvailableEmployees (employees : List Employee) (w : List (Nat × Nat))
    (flightStart flightEnd : Int) : List Employee :=
  employees.filter (fun e =>
    decide (e.start ≤ flightStart) && decide (flightEnd ≤ e.shiftEnd) &&
    decide (getWorkload w e.id < e.maxFlights))

/-- Insertion step of the list sort used to model pandas `sort_values`. -/
def insertLE {α : Type} (le : α → α → Bool) (x : α) : List α → List α
  | [] => [x]
  | y :: ys => if le x y then x :: y :: ys else y :: insertLE le x ys

/-- Sorting by a boolean comparison, modelling pandas `sort_values` by
the same key (the source's quicksort is unstable; which order equal keys
land in is not relied on by any theorem below). -/
def sortLE {α : Type} (le : α → α → Bool) : List α → List α
  | [] => []
  | x :: xs => insertLE le x (sortLE le xs)

/-- Comparison used by `Scheduler.find_best_team` to sort candidates by
`current_workload` ascending. -/
def workloadLE (w : List (Nat × Nat)) (a b : Employee) : Bool :=
  decide (getWorkload w a.id ≤ getWorkload w b.id)

/-- `Scheduler.find_best_team`: empty result when fewer candidates than
`required_size`, else the `required_size` lowest-workload candidate ids. -/
def findBestTeam (requiredSize : Nat) (available : List Employee)
    (w : List (Nat × Nat)) : List Nat :=
  if available.length < requiredSize then []
  else ((sortLE (workloadLE w) available).take requiredSize).map (fun e => e.id)

/-- The failed-assignment record appended by `Scheduler._record_failed_assignment`. -/
def failedAssignment (f : Flight) (required : Nat) (r : FailureReason) : Assignment :=
  { flightId := f.flightNumber, requiredTeamSize := required, assignedTeamSize := 0,
    teamIds := [], teamNames := [], success := false, failureReason := some r }

/-- Name lookup `employees_df[employees_df['employee_id'] == emp_id]['employee_name'].iloc[0]`
performed per selected id in `Scheduler._assign_flight`. -/
def selectedNames (employees : List Employee) (ids : List Nat) : List String :=
  ids.map (fun i => ((employees.find? (fun e => e.id = i)).map (fun e => e.name)).getD "")

/-- The successful-assignment record appended by `Scheduler._assign_flight`. -/
def successAssignment (f : Flight) (required : Nat) (ids : List Nat)
    (names : List String) : Assignment :=
  { flightId := f.flightNumber, requiredTeamSize := required,
    assignedTeamSize := ids.length, teamIds := ids, teamNames := names,
    success := true, failureReason := none }

/-- `Scheduler._assign_flight`: record a failure when no employee is
available or when `find_best_team` returns fewer than required, else bump
each selected employee's workload and record the success. -/
def assignFlight (employees : List Employee) (st : SchedState) (f : Flight) : SchedState :=
  let required := teamSizeNeeded f.heaviness
  let available := findAvailableEmployees employees st.workload f.eta f.etd
  if available.isEmpty then
    { st with assignments := st.assignments ++ [failedAssignment f required FailureReason.noEmployees] }
  else
    let selected := findBestTeam required available st.workload
    if selected.length < required then
      { st with assignments :=
          st.assignments ++ [failedAssignment f required (FailureReason.insufficient selected.length required)] }
    else
      { workload := selected.foldl bumpWorkload st.workload,
        assignments :=
          st.assignments ++ [successAssignment f required selected (selectedNames employees selected)] }

/-- The sort key of `Scheduler.run_scheduling`:
`sort_values(['required_team_size', 'eta_datetime'], ascending=[False, True])` —
required team size descending, then arrival time ascending. -/
def flightLE (a b : Flight) : Bool :=
  decide (teamSizeNeeded b.heaviness < teamSizeNeeded a.heaviness ∨
    (teamSizeNeeded a.heaviness = teamSizeNeeded b.heaviness ∧ a.eta ≤ b.eta))

/-- The processing order of one scheduling pass (`flights_sorted`). -/
def sortFlightsForRun (flights : List Flight) : List Flight :=
  sortLE flightLE flights

/-- The state `run_scheduling` resets to before processing:
`self.assignments = []` and `reset_workload` (all counters 0). -/
def initialSchedState (employees : List Employee) : SchedState :=
  { workload := employees.map (fun e => (e.id, 0)), assignments := [] }

/-- `Scheduler.run_scheduling`: the method discards the prior object state
(`prior`), resets workloads and the assignment list, then folds
`_assign_flight` over the sorted flights. -/
def runScheduling (prior : SchedState) (employees : List Employee)
    (flights : List Flight) : SchedState :=
  (sortFlightsForRun flights).foldl (assignFlight employees) (initialSchedState employees)

/-- A value of the `TeamManager.teams` dict (`team_manager.py`): the
stored fields `members`, `member_ids`, `member_names`, `flight_count`,
`current_flight` (modelled by the flight number), `last_flight_end`,
`size`.  `member_ids`, `member_names` and `size` are stored, not derived. -/
structure Team where
  members : List Employee
  memberIds : List Nat
  memberNames : List String
  flightCount : Nat
  currentFlight : Option String
  lastFlightEnd : Option Int
  size : Nat
deriving DecidableEq

/-- `TeamManager.team_names`. -/
def teamNamePool : List String := ["Alpha", "Bravo", "Charlie", "Delta"]

/-- The employee filter at the top of `TeamManager.form_initial_teams`:
`start <= shift_start_time` and `end > shift_start_time`, in frame order. -/
def filterAvailableAt (employees : List Employee) (t : Int) : List Employee :=
  employees.filter (fun e => decide (e.start ≤ t) && decide (t < e.shiftEnd))

/-- `TeamManager._calculate_team_distribution`: team count by the
threshold chain `4*min_size / 3*min_size / 2*min_size / critical_min`,
then sizes `base+1` for the first `total % num_teams` teams and `base`
for the rest (the source builds the list and bumps the first `remainder`
entries; `remainder < num_teams` always since it is a `%`).  The
`idealSize` argument is passed but unused, as in the source. -/
def calculateTeamDistribution (total idealSize minSize criticalMin : Nat) : Nat × List Nat :=
  let numTeams :=
    if 4 * minSize ≤ total then 4
    else if 3 * minSize ≤ total then 3
    else if 2 * minSize ≤ total then 2
    else if criticalMin ≤ total then 1
    else 0
  if numTeams = 0 then (0, [])
  else
    let base := total / numTeams
    let r := total % numTeams
    (numTeams, (List.range numTeams).map (fun i => if i < r then base + 1 else base))

/-- A freshly formed team entry of `form_initial_teams`: counters zero,
no current flight, no last flight end, declared `size`. -/
def mkTeam (members : List Employee) (size : Nat) : Team :=
  { members := members, memberIds := members.map (fun m => m.id),
    memberNames := members.map (fun m => m.name), flightCount := 0,
    currentFlight := none, lastFlightEnd := none, size := size }

/-- The slicing loop of `form_initial_teams`: consume `team_sizes[i]`
employees per team label in order; whatever is left of the shuffled list
is the remainder (`employees_list[current_index:]`). -/
def buildTeams : List String → List Nat → List Employee →
    List (String × Team) × List Employee
  | [], _, emps => ([], emps)
  | _ :: _, [], emps => ([], emps)
  | n :: names, s :: sizes, emps =>
    let rest := buildTeams names sizes (emps.drop s)
    ((n, mkTeam (emps.take s) s) :: rest.1, rest.2)

/-- `TeamManager.form_initial_teams` on a fresh manager.  The in-place
`random.shuffle` is modelled by the `shuffle` parameter (theorems
hypothesise that it permutes its input).  The source returns
`(None, message)` on failure, modelled as `Except.error message`. -/
def formInitialTeams (employees : List Employee) (shiftStart : Int)
    (shuffle : List Employee → List Employee) :
    Except String (List (String × Team) × List Employee) :=
  let available := filterAvailableAt employees shiftStart
  if available.length = 0 then
    Except.error "No employees available at shift start"
  else
    let dist := calculateTeamDistribution available.length 4 3 2
    Except.ok (buildTeams (teamNamePool.take dist.1) dist.2 (shuffle available))

/-- An element of the list returned by `TeamManager.get_available_teams`:
the dict `{'name', 'size', 'flight_count', 'members'}` (member names). -/
structure AvailTeam where
  name : String
  size : Nat
  flightCount : Nat
  members : List String
deriving DecidableEq

/-- The per-team body of `TeamManager.get_available_teams`: skip when a
current flight is bound; skip when the break since `last_flight_end` is
shorter than `min_break_minutes`; include when every member's shift end
is not before the flight time (vacuously true for an empty member list). -/
def availCheck (flightTime minBreak : Int) (p : String × Team) : Option AvailTeam :=
  if p.2.currentFlight.isSome then none
  else if (match p.2.lastFlightEnd with
           | some e => decide (flightTime - e < minBreak)
           | none => false) then none
  else if p.2.members.all (fun m => !decide (m.shiftEnd < flightTime)) then
    some { name := p.1, size := p.2.size, flightCount := p.2.flightCount,
           members := p.2.memberNames }
  else none

/-- `TeamManager.get_available_teams` (the source default for
`min_break_minutes` is 15; it is passed explicitly here). -/
def getAvailableTeams (teams : List (String × Team)) (flightTime minBreak : Int) :
    List AvailTeam :=
  teams.filterMap (availCheck flightTime minBreak)

/-- The notifications produced by `TeamManager.detect_and_notify_changes`,
reduced to the payload fields the detector decides on; strftime display
strings of the source payload dicts are omitted.  `join` carries
`employee_id` and `suggested_team`. -/
inductive NotifBody where
  | replacement (teamName : String) (leavingId joiningId : Nat)
  | leave (teamName : String) (employeeId : Nat) (remainingTeamSize : Nat)
  | join (employeeId : Nat) (suggestedTeam : Option String)
deriving DecidableEq

/-- The departing-member scan of `detect_and_notify_changes` for one
team: members with `0 < end - now <= 30` minutes yield a
`team_replacement` for the first pool member with `start <= now`,
`end > now + 30` and id not on this team, else a `team_leave` with
`len(members) - 1`. -/
def memberDepartures (employees : List Employee) (t : Int) (teamName : String)
    (td : Team) : List NotifBody :=
  (td.members.map (fun m =>
    if decide (0 < m.shiftEnd - t) && decide (m.shiftEnd - t ≤ 30) then
      match employees.filter (fun e =>
          decide (e.start ≤ t) && decide (t + 30 < e.shiftEnd) &&
          !(td.memberIds.contains e.id)) with
      | [] => [NotifBody.leave teamName m.id (td.members.length - 1)]
      | r :: _ => [NotifBody.replacement teamName m.id r.id]
    else [])).flatten

/-- The suggestion loop of the arrival scan: the first team whose stored
`size` is below the ideal of 4. -/
def firstTeamBelowIdeal (teams : List (String × Team)) : Option String :=
  (teams.find? (fun p => decide (p.2.size < 4))).map (fun p => p.1)

/-- `all_team_member_ids` as recomputed inside the loop: every team's
`member_ids`, concatenated. -/
def allTeamMemberIds (teams : List (String × Team)) : List Nat :=
  (teams.map (fun p => p.2.memberIds)).flatten

/-- `recent_arrivals`: pool members with `start <= now`,
`start >= now - 5` minutes, and id on no team. -/
def recentArrivals (teams : List (String × Team)) (employees : List Employee)
    (t : Int) : List Employee :=
  employees.filter (fun e =>
    decide (e.start ≤ t) && decide (t - 5 ≤ e.start) &&
    !((allTeamMemberIds teams).contains e.id))

/-- `TeamManager.detect_and_notify_changes`, returning the created
notifications in creation order.  In the source the arrival scan
(lines 215-247) is indented inside the `for team_name, team_data in
self.teams.items():` loop even though it uses neither loop variable, so
it runs once per existing team; the embedding reproduces that. -/
def detectAndNotifyChanges (teams : List (String × Team))
    (employees : List Employee) (t : Int) : List NotifBody :=
  (teams.map (fun p =>
    memberDepartures employees t p.1 p.2 ++
    (recentArrivals teams employees t).map
      (fun e => NotifBody.join e.id (firstTeamBelowIdeal teams)))).flatten

/-- An element of the ledger (`notification_system.py`): `id`, `type`,
`status` and the payload fields the approval path reads (`suggested_team`
and `employee_id` of a `team_join`); timestamps and display strings are
omitted.  `manual_override` is recorded on approval. -/
structure Notif where
  id : Nat
  nType : String
  status : String
  employeeId : Nat
  suggestedTeam : Option String
  manualOverride : Option String
deriving DecidableEq

/-- State of one `NotificationSystem` object: `pending_notifications`
(deque in arrival order), `notification_history`, `notification_id_counter`. -/
structure LedgerState where
  pending : List Notif
  history : List Notif
  counter : Nat
deriving DecidableEq

/-- `NotificationSystem.create_notification`: assign the counter as id,
append to the pending deque, bump the counter. -/
def createNotif (st : LedgerState) (nType : String) (employeeId : Nat)
    (suggestedTeam : Option String) : LedgerState × Nat :=
  ({ pending := st.pending ++
      [{ id := st.counter, nType := nType, status := "pending",
         employeeId := employeeId, suggestedTeam := suggestedTeam,
         manualOverride := none }],
     history := st.history, counter := st.counter + 1 }, st.counter)

/-- `deque.remove` of the found notification: drop the first pending
entry carrying the given id. -/
def removeFirstWithId : List Notif → Nat → List Notif
  | [], _ => []
  | n :: ns, i => if n.id = i then ns else n :: removeFirstWithId ns i

/-- Outcome of `approve_notification` / `reject_notification`: the source
returns `(True, notification)` or `(False, "Notification not found")`. -/
inductive ResolveOutcome where
  | ok (n : Notif)
  | notFound
deriving DecidableEq

/-- `NotificationSystem.approve_notification`: look for the id in the
pending deque; if absent return the failure with no state change, else
mark approved, record the override, move the entry to history. -/
def approveNotif (st : LedgerState) (nid : Nat) (override : Option String) :
    LedgerState × ResolveOutcome :=
  match st.pending.find? (fun n => n.id = nid) with
  | none => (st, ResolveOutcome.notFound)
  | some n =>
    let n' := { n with status := "approved", manualOverride := override }
    ({ pending := removeFirstWithId st.pending nid,
       history := st.history ++ [n'], counter := st.counter },
     ResolveOutcome.ok n')

/-- `NotificationSystem.reject_notification`: same search; mark rejected
and move to history (the rejection reason string is omitted). -/
def rejectNotif (st : LedgerState) (nid : Nat) : LedgerState × ResolveOutcome :=
  match st.pending.find? (fun n => n.id = nid) with
  | none => (st, ResolveOutcome.notFound)
  | some n =>
    let n' := { n with status := "rejected" }
    ({ pending := removeFirstWithId st.pending nid,
       history := st.history ++ [n'], counter := st.counter },
     ResolveOutcome.ok n')

/-- Outcome of the orchestration-layer approval. -/
inductive ApproveChangeOutcome where
  | applied (targetTeam : Option String) (n : Notif)
  | notFound
  | invalidOverride
deriving DecidableEq

/-- Modelled from the spec: `TeamBasedScheduler.approve_team_change` is
not in `src/` (dashboard.py imports `TeamBasedScheduler` from
`scheduler.py` and calls this method, but `scheduler.py` only defines the
older `Scheduler` class).  Per spec section 4.5, a `team_join` requires a
target team — the caller-supplied override or the notification's
suggested team — and fails with `InvalidOverride` when neither is
present; per section 7 the notification then remains pending so it can
be retried.  On the non-failing paths the ledger resolution is delegated
to `approve_notification` and the resolved target is reported. -/
def approveTeamChange (st : LedgerState) (nid : Nat) (override : Option String) :
    LedgerState × ApproveChangeOutcome :=
  match st.pending.find? (fun n => n.id = nid) with
  | none => (st, ApproveChangeOutcome.notFound)
  | some n =>
    if n.nType = "team_join" && override.isNone && n.suggestedTeam.isNone then
      (st, ApproveChangeOutcome.invalidOverride)
    else
      let target := if n.nType = "team_join" then override.orElse (fun _ => n.suggestedTeam) else none
      let res := approveNotif st nid override
      (res.1, ApproveChangeOutcome.applied target n)

/-! ## General lemmas about the sorting and list helpers -/

theorem insertLE_perm {α : Type} (le : α → α → Bool) (x : α) (l : List α) :
    (insertLE le x l).Perm (x :: l) := by
  induction l with
  | nil => exact List.Perm.refl _
  | cons y ys ih =>
    unfold insertLE
    by_cases h : le x y = true
    · rw [if_pos h]
    · rw [if_neg h]
      exact (List.Perm.cons y ih).trans (List.Perm.swap x y ys)

theorem sortLE_perm {α : Type} (le : α → α → Bool) (l : List α) :
    (sortLE le l).Perm l := by
  induction l with
  | nil => exact List.Perm.refl _
  | cons x xs ih =>
    exact (insertLE_perm le x (sortLE le xs)).trans (List.Perm.cons x ih)

theorem pairwise_insertLE {α : Type} (le : α → α → Bool)
    (htrans : ∀ a b c, le a b = true → le b c = true → le a c = true)
    (htot : ∀ a b, (le a b || le b a) = true) (x : α) :
    ∀ l : List α, l.Pairwise (fun a b => le a b = true) →
      (insertLE le x l).Pairwise (fun a b => le a b = true) := by
  intro l
  induction l with
  | nil => intro _; simp [insertLE]
  | cons y ys ih =>
    intro hp
    rw [List.pairwise_cons] at hp
    unfold insertLE
    by_cases h : le x y = true
    · rw [if_pos h]
      rw [List.pairwise_cons]
      refine ⟨?_, List.pairwise_cons.mpr hp⟩
      intro z hz
      rcases List.mem_cons.mp hz with hz | hz
      · exact hz ▸ h
      · exact htrans x y z h (hp.1 z hz)
    · rw [if_neg h]
      have hyx : le y x = true := by
        have := htot x y
        cases hxy : le x y
        · rw [hxy] at this; simpa using this
        · exact absurd hxy h
      rw [List.pairwise_cons]
      constructor
      · intro z hz
        rcases List.mem_cons.mp ((insertLE_perm le x ys).mem_iff.mp hz) with hz | hz
        · exact hz ▸ hyx
        · exact hp.1 z hz
      · exact ih hp.2

theorem pairwise_sortLE {α : Type} (le : α → α → Bool)
    (htrans : ∀ a b c, le a b = true → le b c = true → le a c = true)
    (htot : ∀ a b, (le a b || le b a) = true) (l : List α) :
    (sortLE le l).Pairwise (fun a b => le a b = true) := by
  induction l with
  | nil => simp [sortLE]
  | cons x xs ih => exact pairwise_insertLE le htrans htot x _ ih

theorem length_filter_comp {α β : Type} (l : List α) (f : α → β) (p : β → Bool) :
    (l.filter (fun x => p (f x))).length = ((l.map f).filter p).length := by
  induction l with
  | nil => rfl
  | cons x xs ih =>
    by_cases h : p (f x) = true
    · simp [List.filter_cons, h, ih]
    · simp [List.filter_cons, h, ih]

theorem length_filter_range_lt (k r : Nat) (h : r ≤ k) :
    ((List.range k).filter (fun i => decide (i < r))).length = r := by
  induction k with
  | zero =>
    simp
    omega
  | succ k ih =>
    rw [List.range_succ, List.filter_append, List.length_append]
    by_cases hr : r ≤ k
    · rw [ih hr]
      have : ¬(k < r) := by omega
      simp [this]
    · have hrk : r = k + 1 := by omega
      subst hrk
      have hall : (List.range k).filter (fun i => decide (i < k + 1)) = List.range k := by
        apply List.filter_eq_self.mpr
        intro a ha
        have := List.mem_range.mp ha
        simp
        omega
      rw [hall]
      simp

/-! ## Lemmas about the scheduler embedding -/

theorem teamSizeNeeded_pos (h : String) : 0 < teamSizeNeeded h := by
  unfold teamSizeNeeded
  split
  · omega
  · split
    · omega
    · split <;> omega

theorem flightLE_trans (a b c : Flight) (hab : flightLE a b = true)
    (hbc : flightLE b c = true) : flightLE a c = true := by
  simp only [flightLE, decide_eq_true_eq] at *
  omega

theorem flightLE_total (a b : Flight) : (flightLE a b || flightLE b a) = true := by
  simp only [flightLE, Bool.or_eq_true, decide_eq_true_eq]
  omega

theorem assignFlight_length (employees : List Employee) (st : SchedState) (f : Flight) :
    (assignFlight employees st f).assignments.length = st.assignments.length + 1 := by
  simp only [assignFlight]
  split
  · simp
  · split <;> simp

theorem foldl_assignFlight_length (employees : List Employee) :
    ∀ (l : List Flight) (st : SchedState),
      ((l.foldl (assignFlight employees) st).assignments.length =
        st.assignments.length + l.length) := by
  intro l
  induction l with
  | nil => intro st; simp
  | cons f fs ih =>
    intro st
    rw [List.foldl_cons, ih, assignFlight_length]
    simp
    omega

/-! ## Lemmas about the team-formation embedding -/

/-- The closed form of the team count chosen by
`_calculate_team_distribution` for `min_size = 3`, `critical_min = 2`. -/
def calcK (n : Nat) : Nat :=
  if 4 * 3 ≤ n then 4 else if 3 * 3 ≤ n then 3 else if 2 * 3 ≤ n then 2 else 1

theorem calcK_pos (n : Nat) : 0 < calcK n := by
  unfold calcK
  split
  · omega
  · split
    · omega
    · split <;> omega

theorem calcK_le_four (n : Nat) : calcK n ≤ 4 := by
  unfold calcK
  split
  · omega
  · split
    · omega
    · split <;> omega

theorem calcDist_branch (n k : Nat)
    (hk : (if 4 * 3 ≤ n then 4 else if 3 * 3 ≤ n then 3
           else if 2 * 3 ≤ n then 2 else if 2 ≤ n then 1 else 0) = k)
    (hk0 : k ≠ 0) :
    calculateTeamDistribution n 4 3 2 =
      (k, (List.range k).map (fun i => if i < n % k then n / k + 1 else n / k)) := by
  simp only [calculateTeamDistribution]
  rw [hk, if_neg hk0]

theorem calcDist_eq (n : Nat) (h2 : 2 ≤ n) :
    calculateTeamDistribution n 4 3 2 =
      (calcK n, (List.range (calcK n)).map
        (fun i => if i < n % calcK n then n / calcK n + 1 else n / calcK n)) := by
  by_cases h1 : 4 * 3 ≤ n
  · have hkk : calcK n = 4 := by unfold calcK; rw [if_pos h1]
    rw [hkk]
    exact calcDist_branch n 4 (by rw [if_pos h1]) (by omega)
  · by_cases h3 : 3 * 3 ≤ n
    · have hkk : calcK n = 3 := by unfold calcK; rw [if_neg h1, if_pos h3]
      rw [hkk]
      exact calcDist_branch n 3 (by rw [if_neg h1, if_pos h3]) (by omega)
    · by_cases h4 : 2 * 3 ≤ n
      · have hkk : calcK n = 2 := by unfold calcK; rw [if_neg h1, if_neg h3, if_pos h4]
        rw [hkk]
        exact calcDist_branch n 2 (by rw [if_neg h1, if_neg h3, if_pos h4]) (by omega)
      · have hkk : calcK n = 1 := by unfold calcK; rw [if_neg h1, if_neg h3, if_neg h4]
        rw [hkk]
        exact calcDist_branch n 1
          (by rw [if_neg h1, if_neg h3, if_neg h4, if_pos h2]) (by omega)

theorem buildTeams_map_size :
    ∀ (names : List String) (sizes : List Nat) (emps : List Employee),
      sizes.length ≤ names.length →
      (buildTeams names sizes emps).1.map (fun p => p.2.size) = sizes := by
  intro names
  induction names with
  | nil =>
    intro sizes emps h
    have : sizes = [] := List.length_eq_zero.mp (by simpa using h)
    subst this
    rfl
  | cons n ns ih =>
    intro sizes emps h
    cases sizes with
    | nil => rfl
    | cons s ss =>
      simp only [buildTeams, List.map_cons, mkTeam]
      rw [ih ss (emps.drop s) (by simpa using h)]

theorem buildTeams_partition :
    ∀ (names : List String) (sizes : List Nat) (emps : List Employee),
      ((buildTeams names sizes emps).1.map (fun p => p.2.members)).flatten ++
        (buildTeams names sizes emps).2 = emps := by
  intro names
  induction names with
  | nil => intro sizes emps; rfl
  | cons n ns ih =>
    intro sizes emps
    cases sizes with
    | nil => rfl
    | cons s ss =>
      simp only [buildTeams, List.map_cons, mkTeam, List.flatten_cons, List.append_assoc]
      rw [ih ss (emps.drop s)]
      exact List.take_append_drop s emps

/-! ## Lemmas about the notification ledger embedding -/

theorem find?_removeFirstWithId (l : List Notif) (nid : Nat)
    (h : (l.filter (fun x => decide (x.id = nid))).length ≤ 1) :
    (removeFirstWithId l nid).find? (fun x => x.id = nid) = none := by
  induction l with
  | nil => rfl
  | cons a as ih =>
    unfold removeFirstWithId
    by_cases ha : a.id = nid
    · rw [if_pos ha]
      simp [List.filter_cons, ha] at h
      rw [List.find?_eq_none]
      intro x hx
      simpa using h x hx
    · rw [if_neg ha]
      rw [List.find?_cons_of_neg _ (by simpa using ha)]
      apply ih
      rw [List.filter_cons] at h
      simpa [ha] using h

theorem approveNotif_of_find?_none (st : LedgerState) (nid : Nat) (o : Option String)
    (h : st.pending.find? (fun x => x.id = nid) = none) :
    approveNotif st nid o = (st, ResolveOutcome.notFound) := by
  unfold approveNotif
  rw [h]

theorem rejectNotif_of_find?_none (st : LedgerState) (nid : Nat)
    (h : st.pending.find? (fun x => x.id = nid) = none) :
    rejectNotif st nid = (st, ResolveOutcome.notFound) := by
  unfold rejectNotif
  rw [h]

theorem approveNotif_pending_of_find?_some (st : LedgerState) (nid : Nat)
    (o : Option String) (n : Notif) (h : st.pending.find? (fun x => x.id = nid) = some n) :
    (approveNotif st nid o).1.pending = removeFirstWithId st.pending nid := by
  unfold approveNotif
  rw [h]

theorem rejectNotif_pending_of_find?_some (st : LedgerState) (nid : Nat)
    (n : Notif) (h : st.pending.find? (fun x => x.id = nid) = some n) :
    (rejectNotif st nid).1.pending = removeFirstWithId st.pending nid := by
  unfold rejectNotif
  rw [h]

/-! ## Concrete inputs used by counterexamples and witnesses -/

def empA : Employee := { id := 1, name := "Adams, Amy", start := 0, shiftEnd := 480, maxFlights := 4 }

def empB : Employee := { id := 2, name := "Bell, Bo", start := 0, shiftEnd := 480, maxFlights := 4 }

def empC : Employee := { id := 3, name := "Cole, Cy", start := 0, shiftEnd := 480, maxFlights := 4 }

def empD : Employee := { id := 4, name := "Dunn, Di", start := 0, shiftEnd := 480, maxFlights := 4 }

def empLate : Employee := { id := 9, name := "New, Ned", start := 498, shiftEnd := 900, maxFlights := 4 }

def fMed : Flight :=
  { flightNumber := "UA100", city := "DEN", outboundCity := "ORD", eta := 300, etd := 360,
    gate := "G1", heaviness := "Medium" }

def fLight : Flight :=
  { flightNumber := "UA200", city := "EWR", outboundCity := "ORD", eta := 300, etd := 360,
    gate := "G2", heaviness := "Light" }

def fHeavy : Flight :=
  { flightNumber := "UA300", city := "LAX", outboundCity := "ORD", eta := 360, etd := 420,
    gate := "G3", heaviness := "Heavy" }

/-- A record that no scheduling pass over `fMed` with no employees can
produce: it marks a prior pass's log entry. -/
def markerAssignment : Assignment :=
  { flightId := "UA100", requiredTeamSize := 4, assignedTeamSize := 1, teamIds := [99],
    teamNames := ["Ghost"], success := true, failureReason := none }

def priorLogState : SchedState := { workload := [], assignments := [markerAssignment] }

def teamAlpha1 : Team := mkTeam [empA] 1

def teamBravo1 : Team := mkTeam [empB] 1

def ledgerJoinNoSuggestion : Notif :=
  { id := 5, nType := "team_join", status := "pending", employeeId := 9,
    suggestedTeam := none, manualOverride := none }

def ledger0 : LedgerState := { pending := [ledgerJoinNoSuggestion], history := [], counter := 6 }

def ledgerLeave7 : Notif :=
  { id := 7, nType := "team_leave", status := "pending", employeeId := 2,
    suggestedTeam := none, manualOverride := none }

def ledger1 : LedgerState := { pending := [ledgerLeave7], history := [], counter := 8 }

/-! ## Claim C1 -/

/-- C1, counterexample.  A `Medium` flight (requires 4) with three
available employees: the available set is non-empty, no group of the
required size exists, yet `_assign_flight` records the flight as
unassigned (`assignment_success = false`) instead of binding an
undersized team as the claim states. -/
theorem c1_counterexample :
    findAvailableEmployees [empA, empB, empC] [(1, 0), (2, 0), (3, 0)] 300 360 ≠ [] ∧
    (assignFlight [empA, empB, empC]
        { workload := [(1, 0), (2, 0), (3, 0)], assignments := [] } fMed).assignments =
      [failedAssignment fMed 4 (FailureReason.insufficient 0 4)] := by
  constructor
  · decide
  · rfl

/-- C1, amended: when the available-employee set for a flight is non-empty
but smaller than the required team size, the engine does not fall back to
an undersized team; it appends a failed assignment record with the
insufficient-employees reason and leaves the workload tracker unchanged. -/
theorem c1_undersized_recorded_failed (employees : List Employee) (st : SchedState)
    (f : Flight)
    (hne : findAvailableEmployees employees st.workload f.eta f.etd ≠ [])
    (hlt : (findAvailableEmployees employees st.workload f.eta f.etd).length <
      teamSizeNeeded f.heaviness) :
    assignFlight employees st f =
      { st with assignments := st.assignments ++
          [failedAssignment f (teamSizeNeeded f.heaviness)
            (FailureReason.insufficient 0 (teamSizeNeeded f.heaviness))] } := by
  have hemp : (findAvailableEmployees employees st.workload f.eta f.etd).isEmpty = false := by
    rw [List.isEmpty_eq_false]
    exact hne
  have hsel : findBestTeam (teamSizeNeeded f.heaviness)
      (findAvailableEmployees employees st.workload f.eta f.etd) st.workload = [] := by
    unfold findBestTeam
    rw [if_pos hlt]
  simp only [assignFlight, hemp, Bool.false_eq_true, if_false, hsel, List.length_nil]
  rw [if_pos (teamSizeNeeded_pos f.heaviness)]

/-- C1, witness for `c1_undersized_recorded_failed`: two available
employees against a required size of 4. -/
theorem c1_witness :
    (findAvailableEmployees [empA, empB] [(1, 0), (2, 0)] 300 360 ≠ [] ∧
     (findAvailableEmployees [empA, empB] [(1, 0), (2, 0)] 300 360).length <
       teamSizeNeeded fMed.heaviness) ∧
    assignFlight [empA, empB] { workload := [(1, 0), (2, 0)], assignments := [] } fMed =
      { workload := [(1, 0), (2, 0)],
        assignments := [failedAssignment fMed (teamSizeNeeded fMed.heaviness)
          (FailureReason.insufficient 0 (teamSizeNeeded fMed.heaviness))] } := by
  refine ⟨⟨by decide, by decide⟩, ?_⟩
  exact c1_undersized_recorded_failed [empA, empB]
    { workload := [(1, 0), (2, 0)], assignments := [] } fMed (by decide) (by decide)

/-! ## Claim C2 -/

/-- C2, counterexample.  A `Light` flight arriving at 300 and a `Heavy`
flight arriving at 360 in the same pass: the sort of `run_scheduling`
puts the `Heavy` flight first, so the flight with the later arrival time
is processed before the earlier one, contradicting ascending arrival
order. -/
theorem c2_counterexample :
    sortFlightsForRun [fLight, fHeavy] = [fHeavy, fLight] ∧ fLight.eta < fHeavy.eta := by
  constructor
  · rfl
  · decide

/-- C2, amended: within one call, flights are processed in descending
required-team-size order, with ascending arrival time only between
flights of equal required size; the processed sequence is a permutation
of the input and `run_scheduling` folds the per-flight assignment over
exactly that sequence. -/
theorem c2_processing_order (flights : List Flight) (prior : SchedState)
    (employees : List Employee) :
    (sortFlightsForRun flights).Pairwise (fun a b => flightLE a b = true) ∧
    (sortFlightsForRun flights).Perm flights ∧
    runScheduling prior employees flights =
      (sortFlightsForRun flights).foldl (assignFlight employees)
        (initialSchedState employees) := by
  refine ⟨?_, ?_, rfl⟩
  · exact pairwise_sortLE flightLE flightLE_trans flightLE_total flights
  · exact sortLE_perm flightLE flights

/-! ## Claim C3 -/

/-- C3, counterexample.  A prior pass's record (`markerAssignment`, a
successful binding for flight UA100) is in the log; invoking
`run_scheduling` again for the same flight erases it — the previously
logged record is not left in place, and the flight is reprocessed (here
into a fresh failed record), contradicting the append-only claim. -/
theorem c3_counterexample :
    markerAssignment ∈ priorLogState.assignments ∧
    markerAssignment ∉ (runScheduling priorLogState [] [fMed]).assignments ∧
    (runScheduling priorLogState [] [fMed]).assignments =
      [failedAssignment fMed 4 FailureReason.noEmployees] := by
  refine ⟨by decide, by decide, rfl⟩

/-- C3, amended: `run_scheduling` clears the assignment log at the start
of each pass and reprocesses every flight regardless of prior records:
the result is independent of the prior scheduler state, and the rebuilt
log holds exactly one record per input flight. -/
theorem c3_log_rebuilt_each_pass (prior prior2 : SchedState)
    (employees : List Employee) (flights : List Flight) :
    runScheduling prior employees flights = runScheduling prior2 employees flights ∧
    (runScheduling prior employees flights).assignments.length = flights.length := by
  refine ⟨rfl, ?_⟩
  unfold runScheduling
  rw [foldl_assignFlight_length]
  simp only [initialSchedState, List.length_nil, Nat.zero_add]
  exact (sortLE_perm flightLE flights).length_eq

/-! ## Claim C4 -/

/-- C4, counterexample.  A pool with exactly one member covering the
instant: `form_initial_teams` does not return an error — it returns the
teams/remainder pair with zero teams formed and the lone member as
remainder, contradicting the claim that it fails whenever fewer than two
members are available. -/
theorem c4_counterexample :
    formInitialTeams [empA] 240 id = Except.ok ([], [empA]) := by
  rfl

/-- C4, amended: with an empty filtered set `form_initial_teams` fails
with the no-staff error, but with exactly one filtered member it
succeeds, forming zero teams and returning the member as remainder. -/
theorem c4_small_pool_behavior (employees : List Employee) (t : Int)
    (shuffle : List Employee → List Employee) :
    (filterAvailableAt employees t = [] →
      formInitialTeams employees t shuffle =
        Except.error "No employees available at shift start") ∧
    ((filterAvailableAt employees t).length = 1 →
      formInitialTeams employees t shuffle =
        Except.ok ([], shuffle (filterAvailableAt employees t))) := by
  constructor
  · intro h
    unfold formInitialTeams
    rw [if_pos (by rw [h]; rfl)]
  · intro h
    unfold formInitialTeams
    rw [if_neg (by omega)]
    have hdist : calculateTeamDistribution (filterAvailableAt employees t).length 4 3 2 =
        (0, []) := by
      rw [h]
      rfl
    rw [hdist]
    rfl

/-- C4, witness for `c4_small_pool_behavior`: an empty pool and a
one-member pool. -/
theorem c4_witness :
    (formInitialTeams [] 0 id = Except.error "No employees available at shift start") ∧
    (formInitialTeams [empD] 240 id = Except.ok ([], [empD])) := by
  constructor
  · exact (c4_small_pool_behavior [] 0 id).1 rfl
  · exact (c4_small_pool_behavior [empD] 240 id).2 (by decide)

/-! ## Claim C5 -/

theorem length_filter_size (l : List (String × Team)) (v : Nat) :
    (l.filter (fun p => decide (p.2.size = v))).length =
      ((l.map (fun p => p.2.size)).filter (fun s => decide (s = v))).length := by
  induction l with
  | nil => rfl
  | cons x xs ih =>
    by_cases h : x.2.size = v
    · simp [List.filter_cons, h, ih]
    · simp [List.filter_cons, h, ih]

theorem count_sizes : ∀ (k r base : Nat), r ≤ k →
    (((List.range k).map (fun i => if i < r then base + 1 else base)).filter
      (fun s => decide (s = base + 1))).length = r := by
  intro k
  induction k with
  | zero =>
    intro r base h
    simp
    omega
  | succ k ih =>
    intro r base h
    rw [List.range_succ, List.map_append, List.filter_append, List.length_append]
    by_cases hr : r ≤ k
    · rw [ih r base hr]
      have hk : ¬(k < r) := by omega
      simp [hk]
    · have hrk : r = k + 1 := by omega
      subst hrk
      have hall : ((List.range k).map (fun i => if i < k + 1 then base + 1 else base)).filter
          (fun s => decide (s = base + 1)) =
          (List.range k).map (fun i => if i < k + 1 then base + 1 else base) := by
        apply List.filter_eq_self.mpr
        intro b hb
        obtain ⟨i, hi, hbi⟩ := List.mem_map.mp hb
        have hik : i < k := List.mem_range.mp hi
        rw [← hbi]
        have : i < k + 1 := by omega
        simp [this]
      rw [hall]
      have hk1 : k < k + 1 := by omega
      simp [hk1]

/-- C5: for a pool with at least two members covering the instant,
`form_initial_teams` forms `k` teams where `k` is the largest value in
one to four with `3k <= N` (and `k = 1` when `2 <= N < 6`), every formed
team's declared size is `N / k` or `N / k + 1`, and exactly `N % k`
teams get the larger size. -/
theorem c5_formation_distribution (employees : List Employee) (t : Int)
    (shuffle : List Employee → List Employee)
    (h2 : 2 ≤ (filterAvailableAt employees t).length) :
    ∃ teams remainder,
      formInitialTeams employees t shuffle = Except.ok (teams, remainder) ∧
      1 ≤ teams.length ∧ teams.length ≤ 4 ∧
      (3 * teams.length ≤ (filterAvailableAt employees t).length ∨
        (teams.length = 1 ∧ (filterAvailableAt employees t).length < 6)) ∧
      (∀ j : Nat, j ≤ 4 → 3 * j ≤ (filterAvailableAt employees t).length →
        j ≤ teams.length) ∧
      (∀ p ∈ teams, p.2.size = (filterAvailableAt employees t).length / teams.length ∨
        p.2.size = (filterAvailableAt employees t).length / teams.length + 1) ∧
      (teams.filter (fun p =>
        decide (p.2.size =
          (filterAvailableAt employees t).length / teams.length + 1))).length =
        (filterAvailableAt employees t).length % teams.length := by
  obtain ⟨N, hNdef⟩ : ∃ n, (filterAvailableAt employees t).length = n := ⟨_, rfl⟩
  rw [hNdef] at h2 ⊢
  have h0 : ¬((filterAvailableAt employees t).length = 0) := by omega
  have hok : formInitialTeams employees t shuffle =
      Except.ok (buildTeams (teamNamePool.take (calcK N))
        ((List.range (calcK N)).map
          (fun i => if i < N % calcK N then N / calcK N + 1 else N / calcK N))
        (shuffle (filterAvailableAt employees t))) := by
    unfold formInitialTeams
    rw [if_neg h0, hNdef, calcDist_eq N h2]
  refine ⟨(buildTeams (teamNamePool.take (calcK N))
      ((List.range (calcK N)).map
        (fun i => if i < N % calcK N then N / calcK N + 1 else N / calcK N))
      (shuffle (filterAvailableAt employees t))).1,
    (buildTeams (teamNamePool.take (calcK N))
      ((List.range (calcK N)).map
        (fun i => if i < N % calcK N then N / calcK N + 1 else N / calcK N))
      (shuffle (filterAvailableAt employees t))).2, by rw [hok], ?_, ?_, ?_, ?_, ?_, ?_⟩
  all_goals
    have hsz_len : ((List.range (calcK N)).map
        (fun i => if i < N % calcK N then N / calcK N + 1 else N / calcK N)).length =
        calcK N := by simp
  all_goals
    have hnames_len : (teamNamePool.take (calcK N)).length = calcK N := by
      have h4 := calcK_le_four N
      simp [teamNamePool]
      omega
  all_goals
    have hmap := buildTeams_map_size (teamNamePool.take (calcK N))
      ((List.range (calcK N)).map
        (fun i => if i < N % calcK N then N / calcK N + 1 else N / calcK N))
      (shuffle (filterAvailableAt employees t)) (by rw [hsz_len, hnames_len])
  all_goals
    have hTlen : (buildTeams (teamNamePool.take (calcK N))
        ((List.range (calcK N)).map
          (fun i => if i < N % calcK N then N / calcK N + 1 else N / calcK N))
        (shuffle (filterAvailableAt employees t))).1.length = calcK N := by
      have hmap_len := congrArg List.length hmap
      simpa using hmap_len
  · rw [hTlen]
    exact calcK_pos N
  · rw [hTlen]
    exact calcK_le_four N
  · rw [hTlen]
    unfold calcK
    split_ifs <;> omega
  · intro j hj4 hj3
    rw [hTlen]
    unfold calcK
    split_ifs <;> omega
  · intro p hp
    rw [hTlen]
    have hmem : p.2.size ∈ (List.range (calcK N)).map
        (fun i => if i < N % calcK N then N / calcK N + 1 else N / calcK N) :=
      hmap ▸ List.mem_map_of_mem (fun p => p.2.size) hp
    obtain ⟨i, hi, heq⟩ := List.mem_map.mp hmem
    by_cases hir : i < N % calcK N
    · right
      rw [← heq]
      simp [hir]
    · left
      rw [← heq]
      simp [hir]
  · rw [hTlen, length_filter_size, hmap]
    exact count_sizes (calcK N) (N % calcK N) (N / calcK N)
      (le_of_lt (Nat.mod_lt N (calcK_pos N)))

/-- C5, witness for `c5_formation_distribution`: three employees all on
shift form one team of three with no remainder. -/
theorem c5_witness :
    2 ≤ (filterAvailableAt [empA, empB, empC] 240).length ∧
    (∃ teams remainder,
      formInitialTeams [empA, empB, empC] 240 id = Except.ok (teams, remainder) ∧
      1 ≤ teams.length ∧ teams.length ≤ 4 ∧
      (3 * teams.length ≤ (filterAvailableAt [empA, empB, empC] 240).length ∨
        (teams.length = 1 ∧ (filterAvailableAt [empA, empB, empC] 240).length < 6)) ∧
      (∀ j : Nat, j ≤ 4 → 3 * j ≤ (filterAvailableAt [empA, empB, empC] 240).length →
        j ≤ teams.length) ∧
      (∀ p ∈ teams, p.2.size = (filterAvailableAt [empA, empB, empC] 240).length / teams.length ∨
        p.2.size = (filterAvailableAt [empA, empB, empC] 240).length / teams.length + 1) ∧
      (teams.filter (fun p =>
        decide (p.2.size =
          (filterAvailableAt [empA, empB, empC] 240).length / teams.length + 1))).length =
        (filterAvailableAt [empA, empB, empC] 240).length % teams.length) :=
  ⟨by decide, c5_formation_distribution [empA, empB, empC] 240 id (by decide)⟩

/-! ## Claim C6 -/

/-- C6: after a successful `form_initial_teams` whose shuffle permutes
its input, the concatenation of all formed teams' member lists followed
by the remainder is a permutation of the filtered-available input — every
filtered member lands exactly once across teams and remainder. -/
theorem c6_partition (employees : List Employee) (t : Int)
    (shuffle : List Employee → List Employee)
    (teams : List (String × Team)) (remainder : List Employee)
    (hperm : (shuffle (filterAvailableAt employees t)).Perm (filterAvailableAt employees t))
    (hok : formInitialTeams employees t shuffle = Except.ok (teams, remainder)) :
    ((teams.map (fun p => p.2.members)).flatten ++ remainder).Perm
      (filterAvailableAt employees t) := by
  unfold formInitialTeams at hok
  by_cases h0 : (filterAvailableAt employees t).length = 0
  · rw [if_pos h0] at hok
    cases hok
  · rw [if_neg h0] at hok
    have hpair := (Except.ok.injEq _ _).mp hok.symm
    have hteams : teams = (buildTeams
        (teamNamePool.take (calculateTeamDistribution
          (filterAvailableAt employees t).length 4 3 2).1)
        (calculateTeamDistribution (filterAvailableAt employees t).length 4 3 2).2
        (shuffle (filterAvailableAt employees t))).1 :=
      congrArg Prod.fst hpair
    have hrem : remainder = (buildTeams
        (teamNamePool.take (calculateTeamDistribution
          (filterAvailableAt employees t).length 4 3 2).1)
        (calculateTeamDistribution (filterAvailableAt employees t).length 4 3 2).2
        (shuffle (filterAvailableAt employees t))).2 :=
      congrArg Prod.snd hpair
    rw [hteams, hrem, buildTeams_partition]
    exact hperm

/-- C6, witness for `c6_partition`: four employees forming one team of
four plus an empty remainder. -/
theorem c6_witness :
    ((id (filterAvailableAt [empA, empB, empC, empD] 240)).Perm
      (filterAvailableAt [empA, empB, empC, empD] 240) ∧
     formInitialTeams [empA, empB, empC, empD] 240 id =
       Except.ok ([("Alpha", mkTeam [empA, empB, empC, empD] 4)], [])) ∧
    ((([("Alpha", mkTeam [empA, empB, empC, empD] 4)].map
        (fun p : String × Team => p.2.members)).flatten ++ []).Perm
      (filterAvailableAt [empA, empB, empC, empD] 240)) := by
  refine ⟨⟨List.Perm.refl _, by rfl⟩, ?_⟩
  exact c6_partition [empA, empB, empC, empD] 240 id
    [("Alpha", mkTeam [empA, empB, empC, empD] 4)] []
    (List.Perm.refl _) (by rfl)

/-! ## Claim C7 -/

/-- C7, counterexample.  A registry holding a single team with an empty
member list, no current flight and no last-flight-end:
`get_available_teams` returns that team, contradicting the claim that
zero-member teams are excluded from the available set. -/
theorem c7_counterexample :
    (mkTeam [] 0).members = [] ∧
    getAvailableTeams [("Alpha", mkTeam [] 0)] 100 15 =
      [{ name := "Alpha", size := 0, flightCount := 0, members := [] }] := by
  constructor
  · rfl
  · rfl

/-- C7, amended: `get_available_teams` applies no zero-member exclusion —
the member-shift check is vacuously true for an empty member list, so a
team with no members, no current flight and no recorded last flight end
is returned as available. -/
theorem c7_empty_team_returned (teams : List (String × Team)) (t mb : Int)
    (name : String) (td : Team) (hmem : (name, td) ∈ teams)
    (hcf : td.currentFlight = none) (hlast : td.lastFlightEnd = none)
    (hempty : td.members = []) :
    ({ name := name, size := td.size, flightCount := td.flightCount,
       members := td.memberNames } : AvailTeam) ∈ getAvailableTeams teams t mb := by
  unfold getAvailableTeams
  apply List.mem_filterMap.mpr
  refine ⟨(name, td), hmem, ?_⟩
  simp [availCheck, hcf, hlast, hempty]

/-- C7, witness for `c7_empty_team_returned`. -/
theorem c7_witness :
    (("Bravo", mkTeam [] 0) ∈ [("Bravo", mkTeam [] 0)] ∧
     (mkTeam [] 0).currentFlight = none ∧ (mkTeam [] 0).lastFlightEnd = none ∧
     (mkTeam [] 0).members = []) ∧
    ({ name := "Bravo", size := (mkTeam [] 0).size,
       flightCount := (mkTeam [] 0).flightCount,
       members := (mkTeam [] 0).memberNames } : AvailTeam) ∈
      getAvailableTeams [("Bravo", mkTeam [] 0)] 200 15 := by
  refine ⟨⟨by decide, rfl, rfl, rfl⟩, ?_⟩
  exact c7_empty_team_returned [("Bravo", mkTeam [] 0)] 200 15 "Bravo" (mkTeam [] 0)
    (by decide) rfl rfl rfl

/-! ## Claim C8 -/

/-- C8: the arrival scan of `detect_and_notify_changes` sits inside the
per-team loop (source lines 215-247 never use the loop variables), so a
single qualifying new arrival (shift start within the five-minute window,
member of no team) yields one `team_join` notification per existing team:
with two teams the run emits two identical `team_join` notifications, not
exactly one as the claim states. -/
theorem c8_duplicate_join_per_team :
    detectAndNotifyChanges [("Alpha", teamAlpha1), ("Bravo", teamBravo1)]
        [empA, empB, empLate] 500 =
      [NotifBody.join 9 (some "Alpha"), NotifBody.join 9 (some "Alpha")] ∧
    ((detectAndNotifyChanges [("Alpha", teamAlpha1), ("Bravo", teamBravo1)]
        [empA, empB, empLate] 500).filter
      (fun n => decide (n = NotifBody.join 9 (some "Alpha")))).length = 2 := by
  constructor
  · rfl
  · rfl

/-! ## Claim C9 -/

/-- C9: approving a pending `team_join` notification that carries no
suggested team without supplying an override fails with the
invalid-override outcome and leaves the ledger untouched — the
notification stays in the pending queue and history is unchanged, so the
approval can be retried with a valid override. -/
theorem c9_invalid_override_stays_pending (st : LedgerState) (nid : Nat) (n : Notif)
    (hfind : st.pending.find? (fun x => x.id = nid) = some n)
    (hjoin : n.nType = "team_join") (hsug : n.suggestedTeam = none) :
    approveTeamChange st nid none = (st, ApproveChangeOutcome.invalidOverride) ∧
    n ∈ st.pending ∧
    (approveTeamChange st nid none).1.pending = st.pending ∧
    (approveTeamChange st nid none).1.history = st.history := by
  have h1 : approveTeamChange st nid none = (st, ApproveChangeOutcome.invalidOverride) := by
    unfold approveTeamChange
    rw [hfind]
    simp [hjoin, hsug]
  exact ⟨h1, List.mem_of_find?_eq_some hfind, by rw [h1], by rw [h1]⟩

/-- C9, witness for `c9_invalid_override_stays_pending`. -/
theorem c9_witness :
    (ledger0.pending.find? (fun x => x.id = 5) = some ledgerJoinNoSuggestion ∧
     ledgerJoinNoSuggestion.nType = "team_join" ∧
     ledgerJoinNoSuggestion.suggestedTeam = none) ∧
    (approveTeamChange ledger0 5 none = (ledger0, ApproveChangeOutcome.invalidOverride) ∧
     ledgerJoinNoSuggestion ∈ ledger0.pending ∧
     (approveTeamChange ledger0 5 none).1.pending = ledger0.pending ∧
     (approveTeamChange ledger0 5 none).1.history = ledger0.history) := by
  refine ⟨⟨by decide, rfl, rfl⟩, ?_⟩
  exact c9_invalid_override_stays_pending ledger0 5 ledgerJoinNoSuggestion
    (by decide) rfl rfl

/-! ## Claim C10 -/

/-- C10: resolution is terminal.  When the pending queue holds at most
one notification with a given id, then after a successful approve or a
successful reject of that id, every further approve or reject attempt on
the same id returns the not-found outcome and returns the ledger state
unchanged — neither the pending queue nor the history moves. -/
theorem c10_resolution_terminal (st : LedgerState) (nid : Nat) (o o2 : Option String)
    (hcount : (st.pending.filter (fun x => decide (x.id = nid))).length ≤ 1) :
    ((approveNotif st nid o).2 ≠ ResolveOutcome.notFound →
      approveNotif (approveNotif st nid o).1 nid o2 =
        ((approveNotif st nid o).1, ResolveOutcome.notFound) ∧
      rejectNotif (approveNotif st nid o).1 nid =
        ((approveNotif st nid o).1, ResolveOutcome.notFound)) ∧
    ((rejectNotif st nid).2 ≠ ResolveOutcome.notFound →
      approveNotif (rejectNotif st nid).1 nid o2 =
        ((rejectNotif st nid).1, ResolveOutcome.notFound) ∧
      rejectNotif (rejectNotif st nid).1 nid =
        ((rejectNotif st nid).1, ResolveOutcome.notFound)) := by
  constructor
  · intro hres
    cases hf : st.pending.find? (fun x => x.id = nid) with
    | none =>
      exfalso
      apply hres
      rw [approveNotif_of_find?_none st nid o hf]
    | some n =>
      have hpend : (approveNotif st nid o).1.pending = removeFirstWithId st.pending nid :=
        approveNotif_pending_of_find?_some st nid o n hf
      have hnone : ((approveNotif st nid o).1.pending).find? (fun x => x.id = nid) = none := by
        rw [hpend]
        exact find?_removeFirstWithId st.pending nid hcount
      exact ⟨approveNotif_of_find?_none _ nid o2 hnone,
        rejectNotif_of_find?_none _ nid hnone⟩
  · intro hres
    cases hf : st.pending.find? (fun x => x.id = nid) with
    | none =>
      exfalso
      apply hres
      rw [rejectNotif_of_find?_none st nid hf]
    | some n =>
      have hpend : (rejectNotif st nid).1.pending = removeFirstWithId st.pending nid :=
        rejectNotif_pending_of_find?_some st nid n hf
      have hnone : ((rejectNotif st nid).1.pending).find? (fun x => x.id = nid) = none := by
        rw [hpend]
        exact find?_removeFirstWithId st.pending nid hcount
      exact ⟨approveNotif_of_find?_none _ nid o2 hnone,
        rejectNotif_of_find?_none _ nid hnone⟩

/-- C10, witness for `c10_resolution_terminal`: one pending notification
with id 7; after approving it, a second approve and a reject on id 7 both
return the not-found outcome with the ledger unchanged. -/
theorem c10_witness :
    (ledger1.pending.filter (fun x => decide (x.id = 7))).length ≤ 1 ∧
    (approveNotif (approveNotif ledger1 7 none).1 7 none =
      ((approveNotif ledger1 7 none).1, ResolveOutcome.notFound) ∧
     rejectNotif (approveNotif ledger1 7 none).1 7 =
      ((approveNotif ledger1 7 none).1, ResolveOutcome.notFound)) := by
  refine ⟨by decide, ?_⟩
  exact (c10_resolution_terminal ledger1 7 none none (by decide)).1 (by decide)
